import Mathlib

/-!
# Verification of the traefik-throttle admission-control middleware

A shallow embedding, in Lean 4, of the Go middleware `traefik-throttle`
(an in-process two-tier rate limiter for HTTP requests) together with
theorems settling the specification claims about it.

Source layout mirrored here:
* `config.go`   — `Config`, `CreateConfig`, `loadConfigFromFile`
* `utils.go`    — `parseDurationOrDefault`, `getUserIDFromJWT`
* `throttle.go` — `New`, `ServeHTTP`, `applyUserLimits`,
  `applyRateLimiting`, `getEndpointConfig`
* `types.go`    — `Throttle`, `endpointState`, `UserState`

Modelling conventions:
* Go `int` and `time.Duration` (nanoseconds) are modelled as `Int`
  (the counters stay far below 2^63 because they are bounded by the
  configured ceilings, so wraparound is irrelevant to the claims).
* Go maps are modelled as association lists.
* Each region of `applyRateLimiting` / `applyUserLimits` executed while
  holding the state's mutex is one atomic step of a step relation; the
  sleeps and the upstream call happen outside the lock, exactly as in
  the source.
-/

namespace TraefikThrottle

/-! ## Durations (nanosecond counts, as Go `time.Duration`) -/

def nanosecond : Int := 1
def microsecond : Int := 1000
def millisecond : Int := 1000000
def second : Int := 1000000000
def minute : Int := 60000000000
def hour : Int := 3600000000000

/-- Nanosecond value of a Go duration-unit suffix. -/
def unitValue : String → Option Int
  | "ns" => some nanosecond
  | "us" => some microsecond
  | "ms" => some millisecond
  | "s" => some second
  | "m" => some minute
  | "h" => some hour
  | _ => none

def isDigitChar (c : Char) : Bool := '0' ≤ c ∧ c ≤ '9'

/-- Leading decimal digits of a character list, and the remainder. -/
def takeDigits : List Char → List Char × List Char
  | [] => ([], [])
  | c :: cs =>
    if isDigitChar c then
      let (ds, rest) := takeDigits cs
      (c :: ds, rest)
    else
      ([], c :: cs)

/-- Leading non-digit characters of a character list, and the remainder. -/
def takeUnit : List Char → List Char × List Char
  | [] => ([], [])
  | c :: cs =>
    if isDigitChar c then
      ([], c :: cs)
    else
      let (us, rest) := takeUnit cs
      (c :: us, rest)

/-- Numeric value of a digit list (most significant first). -/
def digitsVal (ds : List Char) : Int :=
  ds.foldl (fun acc c => acc * 10 + (Int.ofNat c.toNat - 48)) 0

/-- One or more `<digits><unit>` components, summed in nanoseconds
(`fuel` bounds the number of components; callers pass `length + 1`,
which always suffices since each component is non-empty). -/
def parseComponents : Nat → List Char → Option Int
  | 0, _ => none
  | n + 1, cs =>
    match takeDigits cs with
    | ([], _) => none
    | (ds, rest) =>
      match takeUnit rest with
      | (us, rest2) =>
        match unitValue (String.mk us) with
        | none => none
        | some u =>
          let v := digitsVal ds * u
          match rest2 with
          | [] => some v
          | _ :: _ =>
            match parseComponents n rest2 with
            | none => none
            | some w => some (v + w)

/-- Modelled from the spec: the duration-string parser is the external
Go standard-library function `time.ParseDuration`, outside this
repository.  The spec only requires that well-formed strings such as
`"200ms"` or `"1s"` parse to the corresponding nanosecond count and
that malformed strings (and the empty string) fail.  This model
accepts an optional sign followed by one or more integer+unit
components with units `ns`/`us`/`ms`/`s`/`m`/`h`, plus the literal
`"0"`; fractional components of the real parser are not modelled (no
claim depends on them). -/
def parseDuration (s : String) : Option Int :=
  if s = "0" then some 0
  else
    match s.data with
    | [] => none
    | '-' :: rest =>
      match parseComponents (rest.length + 1) rest with
      | none => none
      | some v => some (-v)
    | '+' :: rest => parseComponents (rest.length + 1) rest
    | cs => parseComponents (cs.length + 1) cs

/-! ## `config.go`: the `Config` type

Go's `Config` is recursive: the `Endpoints` field maps a path to a
method-to-`*Config` map.  `Config` is therefore an inductive type here,
with the field record abstracted over the endpoints-map type. -/

/-- The fields of `Config` (`config.go`), with `E` standing for the
type of the `Endpoints` map.  Unexported Go fields `retryDelayDuration`
and `userRetryDelayDuration` are included (zero-valued until `New`
fills them).  Field defaults are Go zero values. -/
structure ConfigFields (E : Type) where
  endpointsConfigLocation : String := ""
  maxRequests : Int := 0
  maxQueue : Int := 0
  retryCount : Int := 0
  retryDelay : String := ""
  retryDelayDuration : Int := 0
  endpoints : E
  userMaxRequests : Int := 0
  userRetryDelay : String := ""
  userRetryDelayDuration : Int := 0
  jwtSecret : String := ""

/-- `Config` (`config.go`): `Endpoints` is an association list
path → (method → `Config`), modelling the Go nested map of `*Config`. -/
inductive GoConfig : Type where
  | mk : ConfigFields (List (String × List (String × GoConfig))) → GoConfig

abbrev EndpointsMap := List (String × List (String × GoConfig))

def GoConfig.fields : GoConfig → ConfigFields EndpointsMap
  | .mk f => f

/-- Association-list lookup, as Go map indexing (`m[k]`). -/
def lookup {α : Type} (m : List (String × α)) (k : String) : Option α :=
  match m.find? (fun p => p.1 = k) with
  | some p => some p.2
  | none => none

/-- `CreateConfig` (`config.go`): the default configuration. -/
def CreateConfig : GoConfig :=
  .mk { maxRequests := 10
        maxQueue := 0
        retryCount := 3
        retryDelay := "200ms"
        endpoints := []
        userMaxRequests := 1
        userRetryDelay := "1s" }

/-! ## `utils.go` -/

/-- `parseDurationOrDefault` (`utils.go`): parses a duration string or
returns a default value on failure.  Result is `(duration, errored)`:
the Go function returns the default *together with* a non-nil error
when parsing fails, and `(defaultDuration, nil)` for the empty
string. -/
def parseDurationOrDefault (value : String) (defaultDuration : Int) : Int × Bool :=
  if value = "" then (defaultDuration, false)
  else
    match parseDuration value with
    | none => (defaultDuration, true)
    | some d => (d, false)

/-- A decoded JWT claim value (`jwt.MapClaims` entry): either a string
or some non-string JSON value.  Only the `"sub"` claim, and only when
it is a string, is ever read. -/
inductive ClaimValue : Type where
  | str : String → ClaimValue
  | nonString : ClaimValue
deriving DecidableEq

/-- The outcome of the external JWT parse
(`jwt.Parser.ParseUnverified`, outside this repository): either a
claims map or a parse error.  `getUserIDFromJWT` is parameterised over
this collaborator. -/
abbrev TokenParser := String → Option (List (String × ClaimValue))

/-- `getUserIDFromJWT` (`utils.go`): extracts the user ID from the
`Authorization` header.  Every Go return statement of the function has
a `nil` error, so the result is modelled as the returned string alone:
a missing/non-Bearer header, an unparsable token, or a missing or
non-string `"sub"` claim all yield `""`. -/
def getUserIDFromJWT (parseToken : TokenParser) (authHeader : String) : String :=
  if ¬ authHeader.startsWith "Bearer " then ""
  else
    match parseToken (authHeader.drop 7) with
    | none => ""
    | some claims =>
      match lookup claims "sub" with
      | some (.str userID) => userID
      | _ => ""

/-! ## `config.go`: `loadConfigFromFile` -/

/-- The fields a YAML policy file may set, each optional.  The two
unexported duration fields carry the tag `yaml:"-"` in the source and
are never decoded. -/
structure FileFields : Type where
  endpointsConfigLocation : Option String := none
  maxRequests : Option Int := none
  maxQueue : Option Int := none
  retryCount : Option Int := none
  retryDelay : Option String := none
  endpoints : Option EndpointsMap := none
  userMaxRequests : Option Int := none
  userRetryDelay : Option String := none
  jwtSecret : Option String := none

/-- Modelled from the spec: external YAML decoding
(`gopkg.in/yaml.v2`, outside this repository) into a fresh zero-valued
`Config` (`var fileConfig Config`): a field present in the file is
set, an absent field keeps the Go zero value. -/
def decodeInto (f : FileFields) : GoConfig :=
  .mk { endpointsConfigLocation := f.endpointsConfigLocation.getD ""
        maxRequests := f.maxRequests.getD 0
        maxQueue := f.maxQueue.getD 0
        retryCount := f.retryCount.getD 0
        retryDelay := f.retryDelay.getD ""
        retryDelayDuration := 0
        endpoints := f.endpoints.getD []
        userMaxRequests := f.userMaxRequests.getD 0
        userRetryDelay := f.userRetryDelay.getD ""
        userRetryDelayDuration := 0
        jwtSecret := f.jwtSecret.getD "" }

/-- `loadConfigFromFile` (`config.go`).  `fileContents` is the outcome
of the external open+decode of the file at
`config.EndpointsConfigLocation` (`none` = the open or the decode
failed).  Result is `(the config after the call, an error was
returned)`: on success the whole `Config` is overwritten
(`*config = fileConfig`); on failure the config is returned unchanged
together with the error. -/
def loadConfigFromFile (fileContents : Option FileFields) (config : GoConfig) :
    GoConfig × Bool :=
  match fileContents with
  | none => (config, true)
  | some f => (decodeInto f, false)

/-! ## `types.go`: the rate-limiting state records -/

/-- `endpointState` (`types.go`) without its live counters and mutex:
the per-(path, method) limit parameters `New` and `getEndpointConfig`
install.  The counters are the state-machine part, modelled in the
`GState` step relation below. -/
structure EndpointStateInit : Type where
  maxRequests : Int
  maxQueue : Int
  retryCount : Int
  retryDelay : Int
deriving DecidableEq

/-- `UserState` (`types.go`) without its mutex. -/
structure UserState : Type where
  maxRequests : Int
  retryDelay : Int
  requestsCount : Int
deriving DecidableEq

/-! ## `New` (`throttle.go`) -/

/-- The `Throttle` struct (`types.go`), minus the runtime-mutable
parts (`userLimits` starts empty; the live `limits` map entries are
created from `limits`/`globalConfig` by `getEndpointConfig`). -/
structure Throttle : Type where
  globalConfig : GoConfig
  endpointConfigs : EndpointsMap
  limits : List (String × List (String × EndpointStateInit))

/-- The per-endpoint duration resolution inside `New`'s loop: parse
`RetryDelay` with fallback `time.Millisecond` and `UserRetryDelay`
with fallback `time.Second` (on a parse error the code logs and
assigns exactly the default the parse returned), storing both into the
endpoint's `Config`. -/
def resolveEndpointConfig (c : GoConfig) : GoConfig :=
  .mk { c.fields with
        retryDelayDuration := (parseDurationOrDefault c.fields.retryDelay millisecond).1
        userRetryDelayDuration := (parseDurationOrDefault c.fields.userRetryDelay second).1 }

/-- The `endpointState` literal `New` installs in `limits` for one
endpoint-method `Config`: `MaxRequests`, `MaxQueue` and `RetryCount`
verbatim from the endpoint config (no inheritance from the global
config), and the retry delay parsed with the 1 ms fallback. -/
def endpointStateInitOf (c : GoConfig) : EndpointStateInit :=
  { maxRequests := c.fields.maxRequests
    maxQueue := c.fields.maxQueue
    retryCount := c.fields.retryCount
    retryDelay := (parseDurationOrDefault c.fields.retryDelay millisecond).1 }

/-- `New` (`throttle.go`).  `config?` is the `*Config` argument
(`none` = Go `nil`, replaced by `CreateConfig()`); `fileContents` is
the outcome of reading `EndpointsConfigLocation` when that is
non-empty.  A file-load failure is only logged.  A parse error on the
*global* `RetryDelay`/`UserRetryDelay` aborts with an error; parse
errors on per-endpoint durations are logged and defaulted.  The
per-endpoint configs are mutated in place (durations filled in), so
`globalConfig.Endpoints` and `endpointConfigs` see the resolved
configs.  `newEffectiveConfig` is `New`'s prologue: nil-config
replacement followed by the optional file load. -/
def newEffectiveConfig (fileContents : Option FileFields) (config? : Option GoConfig) :
    GoConfig :=
  let config := config?.getD CreateConfig
  if config.fields.endpointsConfigLocation ≠ "" then
    (loadConfigFromFile fileContents config).1
  else config

def New (fileContents : Option FileFields) (config? : Option GoConfig) :
    Except String Throttle :=
  let config := newEffectiveConfig fileContents config?
  match parseDurationOrDefault config.fields.retryDelay millisecond with
  | (_, true) => .error "invalid global retry delay"
  | (retryDelay, false) =>
    match parseDurationOrDefault config.fields.userRetryDelay second with
    | (_, true) => .error "invalid user retry delay"
    | (userRetryDelay, false) =>
      let endpoints : EndpointsMap :=
        config.fields.endpoints.map
          (fun ep => (ep.1, ep.2.map (fun mc => (mc.1, resolveEndpointConfig mc.2))))
      let limits : List (String × List (String × EndpointStateInit)) :=
        endpoints.map
          (fun ep => (ep.1, ep.2.map (fun mc => (mc.1, endpointStateInitOf mc.2))))
      let resolvedConfig : GoConfig :=
        .mk { config.fields with
              retryDelayDuration := retryDelay
              userRetryDelayDuration := userRetryDelay
              endpoints := endpoints }
      .ok { globalConfig := resolvedConfig
            endpointConfigs := endpoints
            limits := limits }

/-! ## `getEndpointConfig` (`throttle.go`) -/

/-- The `endpointState` `getEndpointConfig` creates from the global
config when a (path, method) has no entry in `limits`. -/
def globalEndpointState (t : Throttle) : EndpointStateInit :=
  { maxRequests := t.globalConfig.fields.maxRequests
    maxQueue := t.globalConfig.fields.maxQueue
    retryCount := t.globalConfig.fields.retryCount
    retryDelay := t.globalConfig.fields.retryDelayDuration }

/-- `getEndpointConfig` (`throttle.go`): the limit parameters of the
`endpointState` returned for a (path, method).  (In the source the
computed state is also cached into the `limits` map under the
double-checked `limitsLock`; the cached entry is exactly this value,
so resolution is modelled as the pure lookup.) -/
def getEndpointConfig (t : Throttle) (path method : String) : EndpointStateInit :=
  match lookup t.limits path with
  | none => globalEndpointState t
  | some methodStates =>
    match lookup methodStates method with
    | none => globalEndpointState t
    | some state => state

/-! ## `applyUserLimits` (`throttle.go`) -/

/-- The `UserState` `applyUserLimits` creates on first sight of an
(endpoint-key, user) pair: `userMaxRequests` from the endpoint config
when that config exists *and* sets a positive value, else global;
`userRetryDelayDuration` unconditionally from the endpoint config when
that config exists (its 1 s fallback, not the global value, stands in
for an unset string), else global. -/
def resolveUserState (t : Throttle) (endpoint method : String) : UserState :=
  let endpointConfig : Option GoConfig :=
    match lookup t.endpointConfigs endpoint with
    | none => none
    | some methodConfigs => lookup methodConfigs method
  match endpointConfig with
  | none =>
    { maxRequests := t.globalConfig.fields.userMaxRequests
      retryDelay := t.globalConfig.fields.userRetryDelayDuration
      requestsCount := 0 }
  | some c =>
    { maxRequests :=
        if c.fields.userMaxRequests > 0 then c.fields.userMaxRequests
        else t.globalConfig.fields.userMaxRequests
      retryDelay := c.fields.userRetryDelayDuration
      requestsCount := 0 }

/-- The admission decision of `applyUserLimits`, taken under
`userState.mutex`: at or above the ceiling, write 429 and leave the
state untouched (`(false, s, false)`); below it, increment
`requestsCount`, admit, and schedule exactly one decrement via
`time.AfterFunc(retryDelay, ...)` (`(true, s', true)`; the last
component is whether a timed release was scheduled). -/
def userAdmissionStep (s : UserState) : Bool × UserState × Bool :=
  if s.requestsCount ≥ s.maxRequests then (false, s, false)
  else (true, { s with requestsCount := s.requestsCount + 1 }, true)

/-- A user-tier simulation state: the live `UserState` plus the firing
times of the releases scheduled by `time.AfterFunc` that have not yet
fired. -/
structure UserSim : Type where
  state : UserState
  pending : List Int

/-- Fire every scheduled release whose time has elapsed by `now`: each
decrements `requestsCount` once, unconditionally, independent of the
underlying request's completion. -/
def fireReleases (now : Int) (sim : UserSim) : UserSim :=
  { state :=
      { sim.state with
        requestsCount :=
          sim.state.requestsCount - (sim.pending.filter (fun d => d ≤ now)).length }
    pending := sim.pending.filter (fun d => ¬ d ≤ now) }

/-- One request arriving at absolute time `now`: elapsed releases fire
first, then `applyUserLimits` runs its admission step; an admission
schedules one release at `now + retryDelay`. -/
def userArrival (now : Int) (sim : UserSim) : Bool × UserSim :=
  let sim := fireReleases now sim
  match userAdmissionStep sim.state with
  | (false, s, _) => (false, { sim with state := s })
  | (true, s, _) => (true, { state := s, pending := sim.pending ++ [now + s.retryDelay] })

/-- Run a sequence of arrival times (non-decreasing) through the
user tier, collecting each request's admit/reject decision. -/
def runUserArrivals (sim : UserSim) : List Int → List Bool
  | [] => []
  | t :: ts =>
    let (ok, sim') := userArrival t sim
    ok :: runUserArrivals sim' ts

/-! ## `ServeHTTP` (`throttle.go`) -/

/-- The observable routing of one request through `ServeHTTP`: the
`x-throttle-level` header values added, and which admission tiers ran.
`userAdmits` is the boolean `applyUserLimits` returns when it is
reached. -/
structure ServeOutcome : Type where
  headers : List String
  userTierChecked : Bool
  endpointTierChecked : Bool
deriving DecidableEq

/-- `ServeHTTP` (`throttle.go`), up to the admission decisions: an
empty extracted user ID routes straight to endpoint-tier rate
limiting; otherwise the user tier runs first and, only if it admits,
the endpoint tier runs. -/
def serveHTTPFlow (parseToken : TokenParser) (authHeader : String)
    (userAdmits : Bool) : ServeOutcome :=
  let userID := getUserIDFromJWT parseToken authHeader
  if userID = "" then
    { headers := ["endpoint"], userTierChecked := false, endpointTierChecked := true }
  else if ¬ userAdmits then
    { headers := ["user"], userTierChecked := true, endpointTierChecked := false }
  else
    { headers := ["user", "endpoint or global"]
      userTierChecked := true, endpointTierChecked := true }

/-! ## `applyRateLimiting` (`throttle.go`), single-request view

The retry loop of one request, with the interference of all other
requests abstracted into an environment oracle `env`: at the request's
`k`-th locked attempt, `env k = (requestsCount, queueCount-excluding-
this-request's-own-slot)` are the counter values it observes under the
lock.  The request's own reserved slot (if any) is added back, so the
`queueCount` the code reads is `(env k).2 + 1` when it holds a slot. -/

inductive RLOutcome : Type where
  | admitted
  | rejectedQueueFull
  | rejectedExhausted
deriving DecidableEq

/-- What one run of `applyRateLimiting` did: its outcome, how many
locked admission attempts (loop iterations) it made, how many
`time.Sleep(retryDelay)` calls it performed, how many times it invoked
the upstream handler, whether it still holds a queue slot it
incremented (a reservation never decremented back), and whether it
wrote status 429. -/
structure RunResult : Type where
  outcome : RLOutcome
  attempts : Nat
  sleeps : Nat
  forwards : Nat
  slotHeldAtEnd : Bool
  status429 : Bool
deriving DecidableEq

/-- The loop of `applyRateLimiting`, from attempt index `k` with
`fuel` loop iterations left (`fuel` models `attempt ≥ 0` with
`attempt = fuel - 1`) and reservation flag `incrementedQueue` (the
source's `incrementedQueue`/`queued` pair, set together and never
reset).  `fuel = 0` is loop exit: release the slot if queued, write
429. -/
def rateLimitLoop (p : EndpointStateInit) (env : Nat → Int × Int) (k : Nat) :
    Nat → Bool → RunResult
  | 0, _ =>
    -- loop exhausted: `if queued { queueCount-- }`; reject with 429
    { outcome := .rejectedExhausted, attempts := 0, sleeps := 0, forwards := 0
      slotHeldAtEnd := false, status429 := true }
  | fuel + 1, incrementedQueue =>
    let requestsCount := (env k).1
    let queueCount := (env k).2 + (if incrementedQueue then 1 else 0)
    if requestsCount < p.maxRequests then
      -- admit: requestsCount++, release own slot, forward, deferred decrement
      { outcome := .admitted, attempts := 1, sleeps := 0, forwards := 1
        slotHeldAtEnd := false, status429 := false }
    else if incrementedQueue then
      -- already queued: unlock, sleep, attempt--, retry
      let r := rateLimitLoop p env (k + 1) fuel true
      { r with attempts := r.attempts + 1, sleeps := r.sleeps + 1 }
    else if queueCount < p.maxQueue then
      -- reserve a slot: queueCount++, then re-check fullness
      if queueCount + 1 ≥ p.maxQueue then
        -- the slot just taken filled the queue: 429, slot kept
        { outcome := .rejectedQueueFull, attempts := 1, sleeps := 0, forwards := 0
          slotHeldAtEnd := true, status429 := true }
      else
        let r := rateLimitLoop p env (k + 1) fuel true
        { r with attempts := r.attempts + 1, sleeps := r.sleeps + 1 }
    else
      -- queue already full, nothing reserved: 429
      { outcome := .rejectedQueueFull, attempts := 1, sleeps := 0, forwards := 0
        slotHeldAtEnd := false, status429 := true }

/-- `applyRateLimiting` (`throttle.go`): `attempt` starts at
`retryCount`, the loop runs while `attempt ≥ 0`, so there are
`retryCount + 1` iterations available (none when `retryCount < 0`). -/
def applyRateLimiting (p : EndpointStateInit) (env : Nat → Int × Int) : RunResult :=
  rateLimitLoop p env 0 (p.retryCount + 1).toNat false

/-! ## `applyRateLimiting`, concurrent view

The per-(path, method) `endpointState` counters under arbitrary
interleavings.  Every mutation of `requestsCount`/`queueCount` in the
source happens while holding `state.mutex`, so each maximal
lock-holding region is one atomic step.  A request's position in the
control flow between locked regions is its `Phase`. -/

inductive Phase : Type where
  /-- at the top of the loop, about to lock for an attempt;
  `attempt` is the loop counter, `queued` the reservation flag -/
  | attempting (attempt : Int) (queued : Bool)
  /-- in `time.Sleep(retryDelay)` after a failed attempt; on wake,
  `attempt--` and the loop condition are evaluated -/
  | sleeping (attempt : Int) (queued : Bool)
  /-- inside `t.next.ServeHTTP` (admitted; own slot already released) -/
  | forwarding
  /-- fell out of the loop; about to run the release-if-queued block -/
  | exiting (queued : Bool)
  /-- returned after being admitted and forwarded -/
  | doneAdmitted
  /-- returned via the queue-full 429; `held` records whether this
  request still holds the queue slot it incremented -/
  | doneQueueFull (held : Bool)
  /-- returned via the attempts-exhausted 429 -/
  | doneExhausted
deriving DecidableEq

def boolInt (b : Bool) : Int := if b then 1 else 0

/-- The global state of one `endpointState`: its two counters and the
phases of all requests ever routed to it. -/
structure GState : Type where
  requestsCount : Int
  queueCount : Int
  reqs : List Phase
deriving DecidableEq

/-- Where a request starts: `attempt := retryCount` then the loop
condition `attempt ≥ 0`. -/
def initialPhase (p : EndpointStateInit) : Phase :=
  if p.retryCount ≥ 0 then .attempting p.retryCount false else .exiting false

/-- One atomic step of the admission machinery, for a fixed
`endpointState` parameter block `p`.  Each constructor is one maximal
`state.mutex`-holding region of `applyRateLimiting` (plus `spawn` for
a new request entering and `wake` for a sleep ending). -/
inductive Step (p : EndpointStateInit) : GState → GState → Prop where
  /-- a new request reaches `applyRateLimiting` for this state -/
  | spawn (r q : Int) (l : List Phase) :
      Step p ⟨r, q, l⟩ ⟨r, q, l ++ [initialPhase p]⟩
  /-- `requestsCount < maxRequests`: admit — `requestsCount++`, release
  own queue slot if queued, unlock, start forwarding -/
  | grant (r q a : Int) (qd : Bool) (l₁ l₂ : List Phase)
      (h : r < p.maxRequests) :
      Step p ⟨r, q, l₁ ++ .attempting a qd :: l₂⟩
             ⟨r + 1, q - boolInt qd, l₁ ++ .forwarding :: l₂⟩
  /-- not admitted, already queued: unlock and sleep -/
  | failQueued (r q a : Int) (l₁ l₂ : List Phase)
      (h : ¬ r < p.maxRequests) :
      Step p ⟨r, q, l₁ ++ .attempting a true :: l₂⟩
             ⟨r, q, l₁ ++ .sleeping a true :: l₂⟩
  /-- not admitted, not queued, queue has room, and the new slot fills
  the queue: `queueCount++` then the `queueCount ≥ maxQueue` re-check
  fires — 429 while still holding the slot -/
  | reserveLast (r q a : Int) (l₁ l₂ : List Phase)
      (h : ¬ r < p.maxRequests) (hq : q < p.maxQueue) (hfull : q + 1 ≥ p.maxQueue) :
      Step p ⟨r, q, l₁ ++ .attempting a false :: l₂⟩
             ⟨r, q + 1, l₁ ++ .doneQueueFull true :: l₂⟩
  /-- not admitted, not queued, queue has room and keeps room after the
  reservation: `queueCount++`, unlock, sleep -/
  | reserveOk (r q a : Int) (l₁ l₂ : List Phase)
      (h : ¬ r < p.maxRequests) (hq : q < p.maxQueue) (hroom : ¬ q + 1 ≥ p.maxQueue) :
      Step p ⟨r, q, l₁ ++ .attempting a false :: l₂⟩
             ⟨r, q + 1, l₁ ++ .sleeping a true :: l₂⟩
  /-- not admitted, not queued, queue already full: 429, nothing held -/
  | queueFull (r q a : Int) (l₁ l₂ : List Phase)
      (h : ¬ r < p.maxRequests) (hq : ¬ q < p.maxQueue) :
      Step p ⟨r, q, l₁ ++ .attempting a false :: l₂⟩
             ⟨r, q, l₁ ++ .doneQueueFull false :: l₂⟩
  /-- the sleep ends: `attempt--`, then the loop condition decides
  between another attempt and falling out of the loop -/
  | wake (r q a : Int) (qd : Bool) (l₁ l₂ : List Phase) :
      Step p ⟨r, q, l₁ ++ .sleeping a qd :: l₂⟩
             ⟨r, q, l₁ ++
               (if a - 1 ≥ 0 then Phase.attempting (a - 1) qd else Phase.exiting qd) :: l₂⟩
  /-- after the loop: release the queue slot if queued, write 429 -/
  | exhaust (r q : Int) (qd : Bool) (l₁ l₂ : List Phase) :
      Step p ⟨r, q, l₁ ++ .exiting qd :: l₂⟩
             ⟨r, q - boolInt qd, l₁ ++ .doneExhausted :: l₂⟩
  /-- the upstream call returns: the deferred `requestsCount--` runs -/
  | complete (r q : Int) (l₁ l₂ : List Phase) :
      Step p ⟨r, q, l₁ ++ .forwarding :: l₂⟩
             ⟨r - 1, q, l₁ ++ .doneAdmitted :: l₂⟩

/-- The empty initial state of a freshly created `endpointState`. -/
def initState : GState := ⟨0, 0, []⟩

/-- States the admission machinery can reach from a fresh
`endpointState` by any interleaving of any number of requests. -/
def Reachable (p : EndpointStateInit) (s : GState) : Prop :=
  Relation.ReflTransGen (Step p) initState s

/-- Contribution of a request to `requestsCount`: 1 while it is inside
the upstream call. -/
def fContrib : Phase → Int
  | .forwarding => 1
  | _ => 0

/-- Contribution of a request to `queueCount`: 1 while it holds a
reserved queue slot (including, permanently, after a queue-full 429
with the slot kept). -/
def qContrib : Phase → Int
  | .attempting _ qd => boolInt qd
  | .sleeping _ qd => boolInt qd
  | .exiting qd => boolInt qd
  | .doneQueueFull held => boolInt held
  | _ => 0

/-- Contribution of a *finished* request that leaked its queue slot. -/
def leakContrib : Phase → Int
  | .doneQueueFull held => boolInt held
  | _ => 0

def sumC (f : Phase → Int) (l : List Phase) : Int := (l.map f).sum

/-- The number of requests currently being forwarded upstream. -/
def numForwarding (l : List Phase) : Int := sumC fContrib l

/-- A request that has returned from `applyRateLimiting`. -/
def isDone : Phase → Bool
  | .doneAdmitted => true
  | .doneQueueFull _ => true
  | .doneExhausted => true
  | _ => false

/-- The counter-accounting invariant: `requestsCount` is exactly the
number of requests inside the upstream call, and `queueCount` exactly
the number of requests holding a reserved queue slot. -/
def CountInv : GState → Prop
  | ⟨r, q, l⟩ => r = sumC fContrib l ∧ q = sumC qContrib l

/-- The ceiling invariant: neither counter exceeds its configured
ceiling. -/
def BoundInv (p : EndpointStateInit) : GState → Prop
  | ⟨r, q, _⟩ => r ≤ p.maxRequests ∧ q ≤ p.maxQueue

/-- The endpoint-override `Config` the policy tree holds for a
(path, method): the two-level map lookup `New` and `applyUserLimits`
perform. -/
def overrideOf (cfg : GoConfig) (path method : String) : Option GoConfig :=
  match lookup cfg.fields.endpoints path with
  | none => none
  | some methodConfigs => lookup methodConfigs method

/-! ## Sanity checks of the duration-parser model -/

example : parseDuration "200ms" = some (200 * millisecond) := by decide
example : parseDuration "1s" = some second := by decide
example : parseDuration "x" = none := by decide
example : parseDuration "" = none := by decide

/-! ## Invariant lemmas for the concurrent view -/

theorem sumC_cons (f : Phase → Int) (x : Phase) (l : List Phase) :
    sumC f (x :: l) = f x + sumC f l := by
  simp [sumC]

theorem sumC_append (f : Phase → Int) (l₁ l₂ : List Phase) :
    sumC f (l₁ ++ l₂) = sumC f l₁ + sumC f l₂ := by
  simp [sumC]

theorem sumC_nonneg {f : Phase → Int} (hf : ∀ ph, 0 ≤ f ph) :
    ∀ l : List Phase, 0 ≤ sumC f l := by
  intro l
  induction l with
  | nil => simp [sumC]
  | cons x l ih =>
    rw [sumC_cons]
    have := hf x
    omega

theorem sumC_congr {f g : Phase → Int} :
    ∀ l : List Phase, (∀ ph ∈ l, f ph = g ph) → sumC f l = sumC g l := by
  intro l
  induction l with
  | nil => intro _; rfl
  | cons x l ih =>
    intro h
    rw [sumC_cons, sumC_cons, h x (by simp), ih (fun ph hm => h ph (by simp [hm]))]

theorem fContrib_nonneg : ∀ ph, 0 ≤ fContrib ph := by
  intro ph; cases ph <;> simp [fContrib]

theorem qContrib_nonneg : ∀ ph, 0 ≤ qContrib ph := by
  intro ph
  cases ph <;> simp [qContrib, boolInt] <;> split <;> simp

theorem countInv_initialPhase (p : EndpointStateInit) :
    fContrib (initialPhase p) = 0 ∧ qContrib (initialPhase p) = 0 := by
  unfold initialPhase
  split <;> simp [fContrib, qContrib, boolInt]

theorem countInv_step {p : EndpointStateInit} {s s' : GState}
    (hstep : Step p s s') (h : CountInv s) : CountInv s' := by
  cases hstep with
  | spawn r q l =>
    obtain ⟨hr, hq⟩ := h
    obtain ⟨hf0, hq0⟩ := countInv_initialPhase p
    constructor <;> simp_all [CountInv, sumC_append, sumC_cons, sumC]
  | grant r q a qd l₁ l₂ hlt =>
    obtain ⟨hr, hq⟩ := h
    simp only [CountInv, sumC_append, sumC_cons] at hr hq ⊢
    cases qd <;>
      simp_all [fContrib, qContrib, boolInt] <;> omega
  | failQueued r q a l₁ l₂ hge =>
    obtain ⟨hr, hq⟩ := h
    simp only [CountInv, sumC_append, sumC_cons] at hr hq ⊢
    simp_all [fContrib, qContrib, boolInt]
  | reserveLast r q a l₁ l₂ hge hq' hfull =>
    obtain ⟨hr, hq⟩ := h
    simp only [CountInv, sumC_append, sumC_cons] at hr hq ⊢
    simp_all [fContrib, qContrib, boolInt]
    omega
  | reserveOk r q a l₁ l₂ hge hq' hroom =>
    obtain ⟨hr, hq⟩ := h
    simp only [CountInv, sumC_append, sumC_cons] at hr hq ⊢
    simp_all [fContrib, qContrib, boolInt]
    omega
  | queueFull r q a l₁ l₂ hge hq' =>
    obtain ⟨hr, hq⟩ := h
    simp only [CountInv, sumC_append, sumC_cons] at hr hq ⊢
    simp_all [fContrib, qContrib, boolInt]
  | wake r q a qd l₁ l₂ =>
    obtain ⟨hr, hq⟩ := h
    simp only [CountInv, sumC_append, sumC_cons] at hr hq ⊢
    constructor <;> split <;> cases qd <;>
      simp_all [fContrib, qContrib, boolInt]
  | exhaust r q qd l₁ l₂ =>
    obtain ⟨hr, hq⟩ := h
    simp only [CountInv, sumC_append, sumC_cons] at hr hq ⊢
    cases qd <;> (simp_all [fContrib, qContrib, boolInt]; try omega)
  | complete r q l₁ l₂ =>
    obtain ⟨hr, hq⟩ := h
    simp only [CountInv, sumC_append, sumC_cons] at hr hq ⊢
    simp_all [fContrib, qContrib, boolInt]
    omega

theorem boundInv_step {p : EndpointStateInit} {s s' : GState}
    (hstep : Step p s s') (h : BoundInv p s) : BoundInv p s' := by
  cases hstep with
  | spawn r q l => exact h
  | grant r q a qd l₁ l₂ hlt =>
    obtain ⟨h1, h2⟩ := h
    exact ⟨by omega, by cases qd <;> simp [boolInt] <;> omega⟩
  | failQueued r q a l₁ l₂ hge => exact h
  | reserveLast r q a l₁ l₂ hge hq' hfull =>
    obtain ⟨h1, h2⟩ := h
    exact ⟨h1, by omega⟩
  | reserveOk r q a l₁ l₂ hge hq' hroom =>
    obtain ⟨h1, h2⟩ := h
    exact ⟨h1, by omega⟩
  | queueFull r q a l₁ l₂ hge hq' => exact h
  | wake r q a qd l₁ l₂ => exact h
  | exhaust r q qd l₁ l₂ =>
    obtain ⟨h1, h2⟩ := h
    exact ⟨h1, by cases qd <;> simp [boolInt] <;> omega⟩
  | complete r q l₁ l₂ =>
    obtain ⟨h1, h2⟩ := h
    exact ⟨by omega, h2⟩

theorem countInv_of_reachable {p : EndpointStateInit} {s : GState}
    (h : Reachable p s) : CountInv s := by
  induction h with
  | refl => exact ⟨rfl, rfl⟩
  | tail _ hstep ih => exact countInv_step hstep ih

theorem boundInv_of_reachable {p : EndpointStateInit}
    (hmr : 0 ≤ p.maxRequests) (hmq : 0 ≤ p.maxQueue) {s : GState}
    (h : Reachable p s) : BoundInv p s := by
  induction h with
  | refl => exact ⟨hmr, hmq⟩
  | tail _ hstep ih => exact boundInv_step hstep ih

/-! ## Lemmas about the single-request loop -/

/-- Bookkeeping facts about one run of the loop, by induction on the
remaining fuel: the attempt and sleep counts never exceed the fuel;
the upstream handler is called exactly once iff the run admits, and
429 is written iff it does not; every terminating attempt (admission
or queue-full 429) happens right after the previous attempt's sleep,
so `attempts = sleeps + 1` on those paths; and exhaustion consumes the
whole fuel, sleeps after every attempt (the last included), and
releases any held slot. -/
theorem rateLimitLoop_spec (p : EndpointStateInit) (env : Nat → Int × Int) :
    ∀ (fuel k : Nat) (incQ : Bool),
      (rateLimitLoop p env k fuel incQ).attempts ≤ fuel ∧
      (rateLimitLoop p env k fuel incQ).sleeps ≤ fuel ∧
      (rateLimitLoop p env k fuel incQ).forwards
        = (if (rateLimitLoop p env k fuel incQ).outcome = .admitted then 1 else 0) ∧
      (rateLimitLoop p env k fuel incQ).status429
        = (if (rateLimitLoop p env k fuel incQ).outcome = .admitted then false else true) ∧
      ((rateLimitLoop p env k fuel incQ).outcome ≠ .rejectedExhausted →
        (rateLimitLoop p env k fuel incQ).attempts
          = (rateLimitLoop p env k fuel incQ).sleeps + 1) ∧
      ((rateLimitLoop p env k fuel incQ).outcome = .rejectedExhausted →
        (rateLimitLoop p env k fuel incQ).attempts = fuel ∧
        (rateLimitLoop p env k fuel incQ).sleeps = fuel ∧
        (rateLimitLoop p env k fuel incQ).slotHeldAtEnd = false) := by
  intro fuel
  induction fuel with
  | zero =>
    intro k incQ
    simp [rateLimitLoop]
  | succ n ih =>
    intro k incQ
    by_cases h1 : (env k).1 < p.maxRequests
    · -- admitted on this attempt
      simp [rateLimitLoop, h1]
    · cases incQ with
      | true =>
        -- already queued, failed: sleep and recurse
        have H := ih (k + 1) true
        simp only [rateLimitLoop, if_neg h1] at H ⊢
        simp at H ⊢
        obtain ⟨a1, a2, a3, a4, a5, a6⟩ := H
        refine ⟨by omega, by omega, a3, a4, ?_, ?_⟩
        · intro hout
          have := a5 hout
          omega
        · intro hout
          obtain ⟨b1, b2, b3⟩ := a6 hout
          exact ⟨by omega, by omega, b3⟩
      | false =>
        by_cases h3 : (env k).2 < p.maxQueue
        · by_cases h4 : (env k).2 + 1 ≥ p.maxQueue
          · -- reserved the last free slot: immediate queue-full 429
            simp [rateLimitLoop, h1, h3, h4]
          · -- reserved a slot with room to spare: sleep and recurse
            have H := ih (k + 1) true
            simp only [rateLimitLoop, if_neg h1] at H ⊢
            simp [h3, h4] at H ⊢
            obtain ⟨a1, a2, a3, a4, a5, a6⟩ := H
            refine ⟨by omega, by omega, a3, a4, ?_, ?_⟩
            · intro hout
              have := a5 hout
              omega
            · intro hout
              obtain ⟨b1, b2, b3⟩ := a6 hout
              exact ⟨by omega, by omega, b3⟩
        · -- queue already full: immediate 429
          simp [rateLimitLoop, h1, h3]

/-! ## Lemmas about policy lookup -/

theorem lookup_map {α β : Type} (g : α → β) :
    ∀ (l : List (String × α)) (k : String),
      lookup (l.map (fun p => (p.1, g p.2))) k = (lookup l k).map g := by
  intro l k
  induction l with
  | nil => rfl
  | cons x l ih =>
    by_cases h : x.1 = k <;>
      (simp [lookup, List.find?, h] at ih ⊢; try simpa using ih)

theorem sumC_zero : ∀ l : List Phase, sumC (fun _ => 0) l = 0 := by
  intro l
  induction l with
  | nil => rfl
  | cons x l ih =>
    rw [sumC_cons, ih]
    norm_num

theorem fContrib_of_done {ph : Phase} (h : isDone ph = true) : fContrib ph = 0 := by
  cases ph <;> simp_all [isDone, fContrib]

theorem qContrib_of_done {ph : Phase} (h : isDone ph = true) :
    qContrib ph = leakContrib ph := by
  cases ph <;> simp_all [isDone, qContrib, leakContrib]

/-! ## Claim C1 -/

/-- C1: for non-negative ceilings, every state of an endpoint's
admission machinery reachable by any interleaving of requests
satisfies `0 ≤ requestsCount ≤ maxRequests` and
`0 ≤ queueCount ≤ maxQueue`, and the number of requests concurrently
forwarded to the upstream handler never exceeds `maxRequests`.  (The
bounds hold in *all* reachable states: the increment-then-recheck of
`queueCount` is guarded by `queueCount < maxQueue`, so not even a
transient excursion above the ceiling occurs.) -/
theorem claim_C1_invariant (p : EndpointStateInit)
    (hmr : 0 ≤ p.maxRequests) (hmq : 0 ≤ p.maxQueue)
    (s : GState) (h : Reachable p s) :
    0 ≤ s.requestsCount ∧ s.requestsCount ≤ p.maxRequests ∧
    0 ≤ s.queueCount ∧ s.queueCount ≤ p.maxQueue ∧
    numForwarding s.reqs ≤ p.maxRequests := by
  obtain ⟨r, q, l⟩ := s
  obtain ⟨hc1, hc2⟩ := countInv_of_reachable h
  obtain ⟨hb1, hb2⟩ := boundInv_of_reachable hmr hmq h
  refine ⟨?_, hb1, ?_, hb2, ?_⟩
  · rw [hc1]
    exact sumC_nonneg fContrib_nonneg l
  · rw [hc2]
    exact sumC_nonneg qContrib_nonneg l
  · show sumC fContrib l ≤ p.maxRequests
    rw [← hc1]
    exact hb1

/-- Witness for C1 at `maxRequests = maxQueue = 1`, on the initial
state. -/
theorem claim_C1_witness :
    0 ≤ initState.requestsCount ∧
    initState.requestsCount ≤ (⟨1, 1, 0, millisecond⟩ : EndpointStateInit).maxRequests ∧
    0 ≤ initState.queueCount ∧
    initState.queueCount ≤ (⟨1, 1, 0, millisecond⟩ : EndpointStateInit).maxQueue ∧
    numForwarding initState.reqs ≤ (⟨1, 1, 0, millisecond⟩ : EndpointStateInit).maxRequests :=
  claim_C1_invariant ⟨1, 1, 0, millisecond⟩ (by norm_num) (by norm_num)
    initState Relation.ReflTransGen.refl

/-! ## Claim C2 -/

/-- C2 counterexample: with `maxRequests = 1`, `maxQueue = 1`,
`retryCount = 0`, one admitted-and-completed request and one request
rejected by the queue-full re-check right after it reserved the sole
queue slot leave the machinery in a reachable state in which *every*
request has returned yet `queueCount = 1 ≠ 0`: the rejected request's
queue reservation was never released, so its net effect on the
counters is not zero. -/
theorem claim_C2_counterexample :
    Reachable ⟨1, 1, 0, millisecond⟩
      ⟨0, 1, [.doneAdmitted, .doneQueueFull true]⟩ ∧
    (∀ ph ∈ (⟨0, 1, [.doneAdmitted, .doneQueueFull true]⟩ : GState).reqs,
      isDone ph = true) ∧
    (⟨0, 1, [.doneAdmitted, .doneQueueFull true]⟩ : GState).queueCount ≠ 0 := by
  have hip : initialPhase ⟨1, 1, 0, millisecond⟩ = .attempting 0 false := by
    simp [initialPhase]
  refine ⟨?_, by decide, by decide⟩
  have s1 : Step (⟨1, 1, 0, millisecond⟩ : EndpointStateInit) initState
      ⟨0, 0, [.attempting 0 false]⟩ := by
    have h := Step.spawn (p := ⟨1, 1, 0, millisecond⟩) 0 0 []
    simpa [initState, hip] using h
  have s2 : Step (⟨1, 1, 0, millisecond⟩ : EndpointStateInit)
      ⟨0, 0, [.attempting 0 false]⟩
      ⟨0, 0, [.attempting 0 false, .attempting 0 false]⟩ := by
    have h := Step.spawn (p := ⟨1, 1, 0, millisecond⟩) 0 0 [.attempting 0 false]
    simpa [hip] using h
  have s3 : Step (⟨1, 1, 0, millisecond⟩ : EndpointStateInit)
      ⟨0, 0, [.attempting 0 false, .attempting 0 false]⟩
      ⟨1, 0, [.forwarding, .attempting 0 false]⟩ := by
    have h := Step.grant (p := ⟨1, 1, 0, millisecond⟩) 0 0 0 false
      [] [.attempting 0 false] (by norm_num)
    simpa [boolInt] using h
  have s4 : Step (⟨1, 1, 0, millisecond⟩ : EndpointStateInit)
      ⟨1, 0, [.forwarding, .attempting 0 false]⟩
      ⟨1, 1, [.forwarding, .doneQueueFull true]⟩ := by
    have h := Step.reserveLast (p := ⟨1, 1, 0, millisecond⟩) 1 0 0
      [.forwarding] [] (by norm_num) (by norm_num) (by norm_num)
    simpa using h
  have s5 : Step (⟨1, 1, 0, millisecond⟩ : EndpointStateInit)
      ⟨1, 1, [.forwarding, .doneQueueFull true]⟩
      ⟨0, 1, [.doneAdmitted, .doneQueueFull true]⟩ := by
    have h := Step.complete (p := ⟨1, 1, 0, millisecond⟩) 1 1
      [] [.doneQueueFull true]
    simpa using h
  exact Relation.ReflTransGen.head s1 (Relation.ReflTransGen.head s2
    (Relation.ReflTransGen.head s3 (Relation.ReflTransGen.head s4
      (Relation.ReflTransGen.single s5))))

/-- C2 amended: in every reachable state `requestsCount` is exactly
the number of requests inside the upstream call and `queueCount`
exactly the number of held queue reservations; hence once every
request has returned, `requestsCount = 0` and `queueCount` equals
exactly the number of requests that were rejected by the queue-full
re-check while holding the slot they had just reserved.  Rejection by
attempt exhaustion always releases its reservation and restores both
counters; only the reserve-the-last-slot queue-full rejection leaves
`queueCount` permanently inflated. -/
theorem claim_C2_terminalCounters (p : EndpointStateInit) (s : GState)
    (h : Reachable p s) (hdone : ∀ ph ∈ s.reqs, isDone ph = true) :
    s.requestsCount = 0 ∧ s.queueCount = sumC leakContrib s.reqs := by
  obtain ⟨r, q, l⟩ := s
  obtain ⟨hc1, hc2⟩ := countInv_of_reachable h
  constructor
  · rw [hc1, sumC_congr l (fun ph hm => fContrib_of_done (hdone ph hm))]
    exact sumC_zero l
  · rw [hc2]
    exact sumC_congr l (fun ph hm => qContrib_of_done (hdone ph hm))

/-- Witness for the amended C2 on the empty initial state. -/
theorem claim_C2_witness :
    initState.requestsCount = 0 ∧
    initState.queueCount = sumC leakContrib initState.reqs :=
  claim_C2_terminalCounters ⟨1, 1, 0, millisecond⟩ initState
    Relation.ReflTransGen.refl (by simp [initState])

/-! ## Claim C4 -/

/-- C4: a request that finds `requestsCount ≥ maxRequests` and
successfully reserves the last available queue slot (its increment
makes `queueCount = maxQueue`) is rejected with 429 in that same
first attempt: one attempt, no sleep, no retry, the upstream handler
never called — and the slot stays held. -/
theorem claim_C4_lastSlotRejected (p : EndpointStateInit) (env : Nat → Int × Int)
    (hrc : 0 ≤ p.retryCount)
    (hbusy : ¬ (env 0).1 < p.maxRequests)
    (hroom : (env 0).2 < p.maxQueue)
    (hlast : (env 0).2 + 1 ≥ p.maxQueue) :
    applyRateLimiting p env =
      { outcome := .rejectedQueueFull, attempts := 1, sleeps := 0, forwards := 0
        slotHeldAtEnd := true, status429 := true } := by
  unfold applyRateLimiting
  have hfuel : (p.retryCount + 1).toNat = p.retryCount.toNat + 1 := by omega
  rw [hfuel]
  simp [rateLimitLoop, hbusy, hroom, hlast]

/-- Witness for C4: `maxQueue = 1`, a lone second request (the only
one running, `requestsCount = 1 = maxRequests`, empty queue) reserves
the sole slot and is rejected on that same attempt. -/
theorem claim_C4_witness :
    applyRateLimiting ⟨1, 1, 3, millisecond⟩ (fun _ => (1, 0)) =
      { outcome := .rejectedQueueFull, attempts := 1, sleeps := 0, forwards := 0
        slotHeldAtEnd := true, status429 := true } :=
  claim_C4_lastSlotRejected ⟨1, 1, 3, millisecond⟩ (fun _ => (1, 0))
    (by norm_num) (by norm_num) (by norm_num) (by norm_num)

/-! ## Claim C7 -/

/-- C7 counterexample: with `maxRequests = 1` (busy throughout),
`maxQueue = 1` (initially free) and `retryCount = 3`, the request is
rejected without any attempt admitting it, yet it made 1 attempt —
not `retryCount + 1 = 4` — and the queue reservation it held at
rejection time was *not* released. -/
theorem claim_C7_counterexample :
    (applyRateLimiting ⟨1, 1, 3, millisecond⟩ (fun _ => (1, 0))).outcome ≠ .admitted ∧
    (applyRateLimiting ⟨1, 1, 3, millisecond⟩ (fun _ => (1, 0))).attempts ≠ 3 + 1 ∧
    (applyRateLimiting ⟨1, 1, 3, millisecond⟩ (fun _ => (1, 0))).slotHeldAtEnd = true := by
  decide

/-- C7 amended: endpoint-tier admission makes at most
`retryCount + 1` attempts.  A run that exhausts the budget made
exactly `retryCount + 1` attempts, released any held queue
reservation, and wrote 429; a queue-full rejection may end the run
after fewer attempts and can keep a held reservation.  An admitted run
forwards to the upstream handler exactly once; a rejected run never
forwards and always writes 429. -/
theorem claim_C7_attemptBudget (p : EndpointStateInit) (env : Nat → Int × Int)
    (hrc : 0 ≤ p.retryCount) :
    ((applyRateLimiting p env).attempts : Int) ≤ p.retryCount + 1 ∧
    ((applyRateLimiting p env).outcome = .rejectedExhausted →
      ((applyRateLimiting p env).attempts : Int) = p.retryCount + 1 ∧
      (applyRateLimiting p env).slotHeldAtEnd = false) ∧
    ((applyRateLimiting p env).outcome = .admitted →
      (applyRateLimiting p env).forwards = 1) ∧
    ((applyRateLimiting p env).outcome ≠ .admitted →
      (applyRateLimiting p env).forwards = 0 ∧
      (applyRateLimiting p env).status429 = true) := by
  obtain ⟨a1, a2, a3, a4, a5, a6⟩ :=
    rateLimitLoop_spec p env (p.retryCount + 1).toNat 0 false
  have hfuel : (((p.retryCount + 1).toNat : Int)) = p.retryCount + 1 := by omega
  unfold applyRateLimiting
  refine ⟨?_, ?_, ?_, ?_⟩
  · omega
  · intro hout
    obtain ⟨b1, b2, b3⟩ := a6 hout
    exact ⟨by omega, b3⟩
  · intro hout
    rw [a3, if_pos hout]
  · intro hout
    exact ⟨by rw [a3, if_neg hout], by rw [a4, if_neg hout]⟩

/-- Witness for the amended C7: a busy endpoint with queue room and
`retryCount = 2` exhausts all `2 + 1` attempts and holds no slot at
rejection. -/
theorem claim_C7_witness :
    ((applyRateLimiting ⟨1, 5, 2, millisecond⟩ (fun _ => (1, 0))).attempts : Int)
        = 2 + 1 ∧
    (applyRateLimiting ⟨1, 5, 2, millisecond⟩ (fun _ => (1, 0))).slotHeldAtEnd
        = false :=
  (claim_C7_attemptBudget ⟨1, 5, 2, millisecond⟩ (fun _ => (1, 0))
    (by norm_num)).2.1 (by decide)

/-! ## Claim C8 -/

/-- C8 counterexample: `retryCount = 1`, endpoint busy throughout,
queue roomy: the rejected request sleeps twice, not at most
`retryCount = 1` times — the loop also sleeps after its final failed
attempt, before rejection. -/
theorem claim_C8_counterexample :
    ¬ ((applyRateLimiting ⟨1, 5, 1, millisecond⟩ (fun _ => (1, 0))).sleeps ≤ 1) := by
  decide

/-- C8 amended: the loop sleeps `retryDelay` once after *every*
failed attempt that does not end in a queue-full rejection — the
final attempt before an exhaustion rejection included — so the
calling thread blocks for at most `(retryCount + 1) * retryDelay`,
not `retryCount * retryDelay`: at most `retryCount + 1` sleeps
(exactly that many on exhaustion), and only on admission or
queue-full rejection does no sleep follow the last attempt
(`attempts = sleeps + 1`). -/
theorem claim_C8_sleepBudget (p : EndpointStateInit) (env : Nat → Int × Int)
    (hrc : 0 ≤ p.retryCount) (hrd : 0 ≤ p.retryDelay) :
    ((applyRateLimiting p env).sleeps : Int) ≤ p.retryCount + 1 ∧
    ((applyRateLimiting p env).sleeps : Int) * p.retryDelay
        ≤ (p.retryCount + 1) * p.retryDelay ∧
    ((applyRateLimiting p env).outcome = .rejectedExhausted →
      ((applyRateLimiting p env).sleeps : Int) = p.retryCount + 1) ∧
    ((applyRateLimiting p env).outcome ≠ .rejectedExhausted →
      (applyRateLimiting p env).attempts = (applyRateLimiting p env).sleeps + 1) := by
  obtain ⟨a1, a2, a3, a4, a5, a6⟩ :=
    rateLimitLoop_spec p env (p.retryCount + 1).toNat 0 false
  have hfuel : (((p.retryCount + 1).toNat : Int)) = p.retryCount + 1 := by omega
  have hR : applyRateLimiting p env
      = rateLimitLoop p env 0 (p.retryCount + 1).toNat false := rfl
  rw [hR]
  have hle : ((rateLimitLoop p env 0 (p.retryCount + 1).toNat false).sleeps : Int)
      ≤ p.retryCount + 1 := by omega
  refine ⟨hle, mul_le_mul_of_nonneg_right hle hrd, ?_, a5⟩
  intro hout
  obtain ⟨b1, b2, b3⟩ := a6 hout
  omega

/-- Witness for the amended C8: the exhausted run of the
counterexample configuration sleeps exactly `1 + 1` times. -/
theorem claim_C8_witness :
    ((applyRateLimiting ⟨1, 5, 1, millisecond⟩ (fun _ => (1, 0))).sleeps : Int)
      = 1 + 1 :=
  (claim_C8_sleepBudget ⟨1, 5, 1, millisecond⟩ (fun _ => (1, 0))
    (by norm_num) (by norm_num [millisecond])).2.2.1 (by decide)

/-! ## Claim C6 -/

/-- C6: user-tier admission under the `UserState` lock: at or above
the ceiling the request is rejected immediately (429) with the state
unchanged — no retry, no queue, no wait; below it `requestsCount` is
incremented, the request admitted, and exactly one unconditional
decrement is scheduled to fire `retryDelay` after admission,
independent of the underlying request's completion.  Concretely, with
`userMaxRequests = 2` and `userRetryDelay = 1s`, two instant requests
are admitted, a third instant one is rejected, and a request arriving
1 s later is admitted again. -/
theorem claim_C6_userTier (s : UserState) :
    (s.requestsCount ≥ s.maxRequests → userAdmissionStep s = (false, s, false)) ∧
    (¬ s.requestsCount ≥ s.maxRequests →
      userAdmissionStep s
        = (true, { s with requestsCount := s.requestsCount + 1 }, true)) ∧
    (∀ (now : Int) (sim : UserSim), (userArrival now sim).1 = true →
      (userArrival now sim).2.pending
        = (fireReleases now sim).pending ++ [now + sim.state.retryDelay]) ∧
    runUserArrivals ⟨⟨2, second, 0⟩, []⟩ [0, 0, 0, second]
      = [true, true, false, true] := by
  refine ⟨?_, ?_, ?_, by decide⟩
  · intro h
    simp [userAdmissionStep, h]
  · intro h
    simp [userAdmissionStep, h]
  · intro now sim hadm
    simp only [userArrival] at hadm ⊢
    rcases h : userAdmissionStep (fireReleases now sim).state with ⟨ok, s', sched⟩
    rw [h] at hadm
    cases ok with
    | false => simp at hadm
    | true =>
      have hrd : s'.retryDelay = sim.state.retryDelay := by
        unfold userAdmissionStep at h
        split at h
        · simp at h
        · simp at h
          rw [← h.1]
          simp [fireReleases]
      simp [hrd]

/-- Witness for C6: a full user state (`2` outstanding of `2`) is
rejected with the state unchanged, and the 2-admit/1-reject/recover
scenario evaluates as stated. -/
theorem claim_C6_witness :
    ((⟨2, second, 2⟩ : UserState).requestsCount
        ≥ (⟨2, second, 2⟩ : UserState).maxRequests) ∧
    userAdmissionStep ⟨2, second, 2⟩ = (false, ⟨2, second, 2⟩, false) ∧
    runUserArrivals ⟨⟨2, second, 0⟩, []⟩ [0, 0, 0, second]
      = [true, true, false, true] :=
  ⟨by norm_num,
   (claim_C6_userTier ⟨2, second, 2⟩).1 (by norm_num),
   (claim_C6_userTier ⟨2, second, 2⟩).2.2.2⟩

/-! ## Claim C9 -/

/-- C9: identity extraction never blocks a request.  A header that is
absent or not of Bearer form, a token the parser rejects, or a token
whose claims lack a string `"sub"` all yield the empty identifier
(the Go function's error result is `nil` on every path), and with an
empty identifier `ServeHTTP` skips the user tier entirely: only the
endpoint tier runs, under the `x-throttle-level: endpoint` header. -/
theorem claim_C9_identityNeverBlocks (parseToken : TokenParser)
    (authHeader : String) (userAdmits : Bool)
    (h : ¬ authHeader.startsWith "Bearer "
       ∨ parseToken (authHeader.drop 7) = none
       ∨ (∀ claims, parseToken (authHeader.drop 7) = some claims →
            ∀ sub, lookup claims "sub" ≠ some (.str sub))) :
    getUserIDFromJWT parseToken authHeader = "" ∧
    serveHTTPFlow parseToken authHeader userAdmits =
      { headers := ["endpoint"], userTierChecked := false
        endpointTierChecked := true } := by
  have hid : getUserIDFromJWT parseToken authHeader = "" := by
    by_cases hb : authHeader.startsWith "Bearer "
    · rcases h with h | h | h
      · exact absurd hb h
      · simp [getUserIDFromJWT, hb, h]
      · cases hp : parseToken (authHeader.drop 7) with
        | none => simp [getUserIDFromJWT, hb, hp]
        | some claims =>
          cases hl : lookup claims "sub" with
          | none => simp [getUserIDFromJWT, hb, hp, hl]
          | some v =>
            cases v with
            | str sub => exact absurd hl (h claims hp sub)
            | nonString => simp [getUserIDFromJWT, hb, hp, hl]
    · simp [getUserIDFromJWT, hb]
  exact ⟨hid, by simp [serveHTTPFlow, hid]⟩

/-- Witness for C9: a non-Bearer header with a parser that rejects
everything yields the empty identifier and endpoint-only routing. -/
theorem claim_C9_witness :
    getUserIDFromJWT (fun _ => none) "Basic dXNlcg==" = "" ∧
    serveHTTPFlow (fun _ => none) "Basic dXNlcg==" true =
      { headers := ["endpoint"], userTierChecked := false
        endpointTierChecked := true } :=
  claim_C9_identityNeverBlocks (fun _ => none) "Basic dXNlcg==" true
    (Or.inr (Or.inl rfl))

/-! ## Claim C10 -/

/-- C10: a successful `loadConfigFromFile` replaces the entire
in-memory `Config` wholesale with the decoded file contents —
independent of the prior config, with every field absent from the
file (the former global limits and `CreateConfig` defaults included)
reset to its zero value — while an open/decode failure returns an
error and leaves the config completely unchanged. -/
theorem claim_C10_wholesale (f : FileFields) (config config' : GoConfig) :
    loadConfigFromFile (some f) config = (decodeInto f, false) ∧
    (loadConfigFromFile (some f) config).1 = (loadConfigFromFile (some f) config').1 ∧
    loadConfigFromFile none config = (config, true) ∧
    (f.endpointsConfigLocation = none →
      (decodeInto f).fields.endpointsConfigLocation = "") ∧
    (f.maxRequests = none → (decodeInto f).fields.maxRequests = 0) ∧
    (f.maxQueue = none → (decodeInto f).fields.maxQueue = 0) ∧
    (f.retryCount = none → (decodeInto f).fields.retryCount = 0) ∧
    (f.retryDelay = none → (decodeInto f).fields.retryDelay = "") ∧
    (f.endpoints = none → (decodeInto f).fields.endpoints = []) ∧
    (f.userMaxRequests = none → (decodeInto f).fields.userMaxRequests = 0) ∧
    (f.userRetryDelay = none → (decodeInto f).fields.userRetryDelay = "") ∧
    (f.jwtSecret = none → (decodeInto f).fields.jwtSecret = "") ∧
    (decodeInto f).fields.retryDelayDuration = 0 ∧
    (decodeInto f).fields.userRetryDelayDuration = 0 := by
  refine ⟨rfl, rfl, rfl, ?_, ?_, ?_, ?_, ?_, ?_, ?_, ?_, ?_, rfl, rfl⟩ <;>
    (intro h; simp [decodeInto, GoConfig.fields, h])

/-- Witness for C10: an empty policy file resets `CreateConfig`'s
defaults (e.g. `maxRequests = 10`) to zero. -/
theorem claim_C10_witness :
    loadConfigFromFile (some {}) CreateConfig = (decodeInto {}, false) ∧
    (decodeInto {}).fields.maxRequests = 0 ∧
    CreateConfig.fields.maxRequests = 10 ∧
    loadConfigFromFile none CreateConfig = (CreateConfig, true) := by
  have h := claim_C10_wholesale {} CreateConfig CreateConfig
  exact ⟨h.1, h.2.2.2.2.1 rfl, rfl, h.2.2.1⟩

/-! ## Claim C3 -/

/-- C3 counterexample: a configuration whose *global* `RetryDelay`
string does not parse makes `New` return an error — construction does
fail on an unparsable duration string instead of falling back to the
1 ms default. -/
theorem claim_C3_counterexample :
    New none (some (.mk { retryDelay := "notaduration", endpoints := [] }))
      = .error "invalid global retry delay" := by
  rfl

/-- C3 amended: `New` fails *only* on an unparsable global
`RetryDelay` or `UserRetryDelay` (it returns a handler iff both global
duration strings are empty or parse); an unreadable/unparsable policy
file is merely logged, the supplied configuration stays in use
unchanged; and per-endpoint duration strings that fail to parse are
logged and replaced by the hard-coded defaults — 1 ms for the retry
delay, 1 s for the user retry delay — never failing construction. -/
theorem claim_C3_softFailures (fileContents : Option FileFields)
    (config? : Option GoConfig) (c : GoConfig) :
    ((∃ t, New fileContents config? = .ok t) ↔
      ((parseDurationOrDefault
          (newEffectiveConfig fileContents config?).fields.retryDelay millisecond).2
            = false ∧
       (parseDurationOrDefault
          (newEffectiveConfig fileContents config?).fields.userRetryDelay second).2
            = false)) ∧
    newEffectiveConfig none (some c) = c ∧
    (parseDuration c.fields.retryDelay = none →
      (endpointStateInitOf c).retryDelay = millisecond ∧
      (resolveEndpointConfig c).fields.retryDelayDuration = millisecond) ∧
    (parseDuration c.fields.userRetryDelay = none →
      (resolveEndpointConfig c).fields.userRetryDelayDuration = second) := by
  refine ⟨?_, ?_, ?_, ?_⟩
  · constructor
    · rintro ⟨t, ht⟩
      simp only [New] at ht
      rcases hp1 : parseDurationOrDefault
          (newEffectiveConfig fileContents config?).fields.retryDelay millisecond
          with ⟨d1, b1⟩
      rw [hp1] at ht
      cases b1 with
      | true => simp at ht
      | false =>
        rcases hp2 : parseDurationOrDefault
            (newEffectiveConfig fileContents config?).fields.userRetryDelay second
            with ⟨d2, b2⟩
        simp only at ht
        rw [hp2] at ht
        cases b2 with
        | true => simp at ht
        | false => exact ⟨rfl, rfl⟩
    · rintro ⟨h1, h2⟩
      simp only [New]
      rcases hp1 : parseDurationOrDefault
          (newEffectiveConfig fileContents config?).fields.retryDelay millisecond
          with ⟨d1, b1⟩
      rw [hp1] at h1
      simp only at h1
      subst h1
      rcases hp2 : parseDurationOrDefault
          (newEffectiveConfig fileContents config?).fields.userRetryDelay second
          with ⟨d2, b2⟩
      rw [hp2] at h2
      simp only at h2
      subst h2
      exact ⟨_, rfl⟩
  · show newEffectiveConfig none (some c) = c
    simp only [newEffectiveConfig, Option.getD_some]
    split <;> rfl
  · intro h
    obtain ⟨f⟩ := c
    by_cases he : f.retryDelay = "" <;>
      simp_all [endpointStateInitOf, resolveEndpointConfig, parseDurationOrDefault,
        GoConfig.fields]
  · intro h
    obtain ⟨f⟩ := c
    by_cases he : f.userRetryDelay = "" <;>
      simp_all [resolveEndpointConfig, parseDurationOrDefault, GoConfig.fields]

/-- Witness for the amended C3: a config with parsable global
durations and an endpoint whose duration strings are garbage still
constructs, and the endpoint's delays default to 1 ms / 1 s. -/
theorem claim_C3_witness :
    (New none (some (.mk { retryDelay := "5ms", endpoints := [("/e", [("GET", .mk { retryDelay := "zz", userRetryDelay := "yy", endpoints := [] })])] }))).toOption.isSome = true ∧
    (endpointStateInitOf (.mk { retryDelay := "zz", userRetryDelay := "yy", endpoints := [] })).retryDelay = millisecond ∧
    (resolveEndpointConfig (.mk { retryDelay := "zz", userRetryDelay := "yy", endpoints := [] })).fields.userRetryDelayDuration = second := by
  have h := claim_C3_softFailures none
    (some (.mk { retryDelay := "5ms", endpoints := [("/e", [("GET", .mk { retryDelay := "zz", userRetryDelay := "yy", endpoints := [] })])] }))
    (.mk { retryDelay := "zz", userRetryDelay := "yy", endpoints := [] })
  obtain ⟨t, ht⟩ := h.1.mpr ⟨rfl, rfl⟩
  exact ⟨by rw [ht]; rfl, (h.2.2.1 rfl).1, h.2.2.2 rfl⟩

/-! ## Claim C5 -/

/-- Building the `limits` entry from the duration-resolved endpoint
config equals building it from the raw one: `endpointStateInitOf`
reads only fields `resolveEndpointConfig` leaves untouched, plus the
same parsed retry delay. -/
theorem endpointStateInitOf_resolve (c : GoConfig) :
    endpointStateInitOf (resolveEndpointConfig c) = endpointStateInitOf c := by
  obtain ⟨f⟩ := c
  rfl

/-- Inversion of a successful `New`: the resolved endpoint-config map
and the `limits` map of the returned `Throttle`. -/
theorem New_ok_inv (fileContents : Option FileFields) (config? : Option GoConfig)
    (t : Throttle) (hok : New fileContents config? = .ok t) :
    t.endpointConfigs = (newEffectiveConfig fileContents config?).fields.endpoints.map
        (fun ep => (ep.1, ep.2.map (fun mc => (mc.1, resolveEndpointConfig mc.2)))) ∧
    t.limits = t.endpointConfigs.map
        (fun ep => (ep.1, ep.2.map (fun mc => (mc.1, endpointStateInitOf mc.2)))) := by
  simp only [New] at hok
  rcases hp1 : parseDurationOrDefault
      (newEffectiveConfig fileContents config?).fields.retryDelay millisecond
      with ⟨d1, b1⟩
  rw [hp1] at hok
  cases b1 with
  | true => simp at hok
  | false =>
    rcases hp2 : parseDurationOrDefault
        (newEffectiveConfig fileContents config?).fields.userRetryDelay second
        with ⟨d2, b2⟩
    simp only at hok
    rw [hp2] at hok
    cases b2 with
    | true => simp at hok
    | false =>
      simp only [Except.ok.injEq] at hok
      subst hok
      exact ⟨rfl, rfl⟩

/-- The `endpointState` parameters a `New`-built `Throttle` resolves
for a (path, method): the override's own values when the policy tree
has an override for that key, the global values otherwise. -/
theorem getEndpointConfig_ok (fileContents : Option FileFields)
    (config? : Option GoConfig) (t : Throttle)
    (hok : New fileContents config? = .ok t) (path method : String) :
    getEndpointConfig t path method
      = match overrideOf (newEffectiveConfig fileContents config?) path method with
        | some c => endpointStateInitOf c
        | none => globalEndpointState t := by
  obtain ⟨hEC, hLim⟩ := New_ok_inv fileContents config? t hok
  unfold getEndpointConfig overrideOf
  rw [hLim, hEC, lookup_map, lookup_map]
  cases lookup (newEffectiveConfig fileContents config?).fields.endpoints path with
  | none => rfl
  | some ms =>
    cases hm : lookup ms method with
    | none => simp [lookup_map, hm, -List.map_map]
    | some c => simp [lookup_map, hm, -List.map_map, endpointStateInitOf_resolve]

/-- The `UserState` parameters a `New`-built `Throttle` resolves for a
(path, method): with an override, `userMaxRequests` from the override
when positive (else global) and the override's parsed
`userRetryDelay` (1 s default — not the global value — when unset or
unparsable); without one, the global values. -/
theorem resolveUserState_ok (fileContents : Option FileFields)
    (config? : Option GoConfig) (t : Throttle)
    (hok : New fileContents config? = .ok t) (path method : String) :
    resolveUserState t path method
      = match overrideOf (newEffectiveConfig fileContents config?) path method with
        | some c =>
          { maxRequests :=
              if c.fields.userMaxRequests > 0 then c.fields.userMaxRequests
              else t.globalConfig.fields.userMaxRequests
            retryDelay := (parseDurationOrDefault c.fields.userRetryDelay second).1
            requestsCount := 0 }
        | none =>
          { maxRequests := t.globalConfig.fields.userMaxRequests
            retryDelay := t.globalConfig.fields.userRetryDelayDuration
            requestsCount := 0 } := by
  obtain ⟨hEC, _⟩ := New_ok_inv fileContents config? t hok
  unfold resolveUserState overrideOf
  rw [hEC, lookup_map]
  cases lookup (newEffectiveConfig fileContents config?).fields.endpoints path with
  | none => rfl
  | some ms =>
    cases hm : lookup ms method with
    | none => simp [lookup_map, hm]
    | some c =>
      simp [lookup_map, hm, -List.map_map]
      obtain ⟨f⟩ := c
      simp [resolveEndpointConfig, GoConfig.fields]

/-- C5 counterexample: with a global policy
(`maxRequests = 10`, `maxQueue = 5`, `retryCount = 3`,
`retryDelay = "500ms"`, `userMaxRequests = 2`,
`userRetryDelay = "2s"`) and an override for
(`/api/v1/resource`, GET) that leaves every field unset, the resolved
endpoint state is `(0, 0, 0, 1ms)` — the unset `maxRequests`,
`maxQueue`, `retryCount` do *not* inherit the global 10/5/3, and the
unset `retryDelay` gets the hard-coded 1 ms, not the global 500 ms —
and the resolved user retry delay is the hard-coded 1 s, not the
global 2 s. -/
theorem claim_C5_counterexample :
    (New none (some (.mk { maxRequests := 10, maxQueue := 5, retryCount := 3, retryDelay := "500ms", userMaxRequests := 2, userRetryDelay := "2s", endpoints := [("/api/v1/resource", [("GET", .mk { endpoints := [] })])] }))).toOption.map
        (fun t => (getEndpointConfig t "/api/v1/resource" "GET",
                   t.globalConfig.fields.maxRequests,
                   t.globalConfig.fields.maxQueue,
                   t.globalConfig.fields.retryCount,
                   t.globalConfig.fields.retryDelayDuration,
                   (resolveUserState t "/api/v1/resource" "GET").retryDelay,
                   t.globalConfig.fields.userRetryDelayDuration))
      = some (⟨0, 0, 0, millisecond⟩, 10, 5, 3, 500 * millisecond,
              second, 2 * second) := by
  rfl

/-- C5 amended: policy resolution is only partially per-field.  When
an override exists for (path, method): `maxRequests`, `maxQueue` and
`retryCount` are taken verbatim from the override — a zero (unset)
value stays zero instead of inheriting the global value —
`retryDelay` and `userRetryDelay` are parsed from the override's own
strings with the hard-coded 1 ms / 1 s fallbacks (an empty or
unparsable string gets the fallback, not the global value), and only
`userMaxRequests` falls back to the global value when the override
leaves it non-positive.  Without an override the global policy
applies wholesale. -/
theorem claim_C5_perField (fileContents : Option FileFields)
    (config? : Option GoConfig) (t : Throttle)
    (hok : New fileContents config? = .ok t) (path method : String) :
    (∀ c, overrideOf (newEffectiveConfig fileContents config?) path method = some c →
      getEndpointConfig t path method = endpointStateInitOf c ∧
      (endpointStateInitOf c).maxRequests = c.fields.maxRequests ∧
      (endpointStateInitOf c).maxQueue = c.fields.maxQueue ∧
      (endpointStateInitOf c).retryCount = c.fields.retryCount ∧
      (endpointStateInitOf c).retryDelay
        = (parseDurationOrDefault c.fields.retryDelay millisecond).1 ∧
      resolveUserState t path method =
        { maxRequests :=
            if c.fields.userMaxRequests > 0 then c.fields.userMaxRequests
            else t.globalConfig.fields.userMaxRequests
          retryDelay := (parseDurationOrDefault c.fields.userRetryDelay second).1
          requestsCount := 0 }) ∧
    (overrideOf (newEffectiveConfig fileContents config?) path method = none →
      getEndpointConfig t path method = globalEndpointState t ∧
      resolveUserState t path method =
        { maxRequests := t.globalConfig.fields.userMaxRequests
          retryDelay := t.globalConfig.fields.userRetryDelayDuration
          requestsCount := 0 }) := by
  have hget := getEndpointConfig_ok fileContents config? t hok path method
  have huser := resolveUserState_ok fileContents config? t hok path method
  constructor
  · intro c hc
    rw [hc] at hget huser
    exact ⟨hget, rfl, rfl, rfl, rfl, huser⟩
  · intro hc
    rw [hc] at hget huser
    exact ⟨hget, huser⟩

/-- Witness for the amended C5: a concrete `Throttle` built by `New`
from a global `maxRequests = 3`, `userMaxRequests = 1` policy with an
override setting only `maxRequests = 7` for (`/p`, GET): the resolved
endpoint state takes the override's 7 with zeros elsewhere and the
1 ms delay, and the resolved user state inherits the global
`userMaxRequests = 1` with the 1 s delay. -/
theorem claim_C5_witness :
    getEndpointConfig
        { globalConfig := .mk { maxRequests := 3, userMaxRequests := 1, retryDelayDuration := millisecond, userRetryDelayDuration := second, endpoints := [("/p", [("GET", .mk { maxRequests := 7, endpoints := [], retryDelayDuration := millisecond, userRetryDelayDuration := second })])] },
          endpointConfigs := [("/p", [("GET", .mk { maxRequests := 7, endpoints := [], retryDelayDuration := millisecond, userRetryDelayDuration := second })])],
          limits := [("/p", [("GET", ⟨7, 0, 0, millisecond⟩)])] }
        "/p" "GET" = ⟨7, 0, 0, millisecond⟩ ∧
    resolveUserState
        { globalConfig := .mk { maxRequests := 3, userMaxRequests := 1, retryDelayDuration := millisecond, userRetryDelayDuration := second, endpoints := [("/p", [("GET", .mk { maxRequests := 7, endpoints := [], retryDelayDuration := millisecond, userRetryDelayDuration := second })])] },
          endpointConfigs := [("/p", [("GET", .mk { maxRequests := 7, endpoints := [], retryDelayDuration := millisecond, userRetryDelayDuration := second })])],
          limits := [("/p", [("GET", ⟨7, 0, 0, millisecond⟩)])] }
        "/p" "GET" = ⟨1, second, 0⟩ := by
  have h := claim_C5_perField none
    (some (.mk { maxRequests := 3, userMaxRequests := 1, endpoints := [("/p", [("GET", .mk { maxRequests := 7, endpoints := [] })])] }))
    { globalConfig := .mk { maxRequests := 3, userMaxRequests := 1, retryDelayDuration := millisecond, userRetryDelayDuration := second, endpoints := [("/p", [("GET", .mk { maxRequests := 7, endpoints := [], retryDelayDuration := millisecond, userRetryDelayDuration := second })])] },
      endpointConfigs := [("/p", [("GET", .mk { maxRequests := 7, endpoints := [], retryDelayDuration := millisecond, userRetryDelayDuration := second })])],
      limits := [("/p", [("GET", ⟨7, 0, 0, millisecond⟩)])] }
    rfl "/p" "GET"
  obtain ⟨h1, _, _, _, _, h2⟩ := h.1 (.mk { maxRequests := 7, endpoints := [] }) rfl
  exact ⟨h1.trans rfl, h2.trans rfl⟩

end TraefikThrottle
